import Mathlib

/-!
Shallow embedding of `src/310hw.py` (`mydig`, an iterative DNS resolver).

The Python program is a single loop (`while True`) driven by the response of
the transport (`dns.query.udp`).  We model the transport as an oracle
`Network : String → Query → TransportOutcome` giving, for a nameserver
address and a query, either a parsed response, a timeout/socket error
(`fail`, the first `except` arm), or any other exception (`err`, the
generic `except Exception` arm).  The loop itself becomes a fuel-indexed
recursive function `mydigGo`; a result of `none` means the fuel ran out,
so `∀ fuel, result = none` states that the Python loop never terminates on
that input.  Alongside the Python return value (`(ip, final_domain)` or
`(None, None)`, modelled as `Option (String × String)`) we collect the
trace of `(nameserver, query)` pairs handed to the transport.
-/

namespace Mydig

/-- DNS record types used by the program (`dns.rdatatype`). -/
inductive RType where
  | A
  | CNAME
  | NS
  | SOA
  | OTHER
deriving DecidableEq

/-- A resource record set as the program sees it: owner name, type, and the
record data (addresses for A records, target names for CNAME/NS records). -/
structure RRset where
  name : String
  rdtype : RType
  records : List String
deriving DecidableEq

/-- The Recursion Desired bit of the DNS flags word (`dns.flags.RD`). -/
def RD : Nat := 256

/-- `dns.message.make_query` initialises the flags word with RD set. -/
def make_query_default_flags : Nat := RD

/-- A DNS query message. -/
structure Query where
  qname : String
  qtype : RType
  flags : Nat
deriving DecidableEq

/-- Lines 52-53 of the source: build the query for the current domain with
`make_query` and then toggle the RD bit (`query.flags ^= dns.flags.RD`). -/
def mkQuery (d : String) : Query :=
  ⟨d, RType.A, Nat.xor make_query_default_flags RD⟩

/-- Whether the Recursion Desired bit is set in a query's flags. -/
def Query.rdBit (q : Query) : Bool :=
  q.flags &&& RD != 0

/-- A parsed DNS response: rcode and the three sections. -/
structure Resp where
  rcode : Nat
  answer : List RRset
  authority : List RRset
  additional : List RRset
deriving DecidableEq

/-- Outcome of one transport attempt (`dns.query.udp`): a parsed response, a
timeout or socket error (first `except` arm, line 117), or any other
exception (generic `except Exception`, line 129). -/
inductive TransportOutcome where
  | resp (r : Resp)
  | fail
  | err
deriving DecidableEq

/-- The mocked hierarchy: what each nameserver address answers to each query. -/
abbrev Network := String → Query → TransportOutcome

/-- The thirteen root server addresses (lines 11-25 of the source). -/
def ROOT_SERVERS : List String :=
  [ "198.41.0.4"
  , "199.9.14.201"
  , "192.33.4.12"
  , "199.7.91.13"
  , "192.203.230.10"
  , "192.5.5.241"
  , "192.112.36.4"
  , "198.97.190.53"
  , "192.36.148.17"
  , "192.58.128.30"
  , "193.0.14.129"
  , "199.7.83.42"
  , "202.12.27.33"
  ]

/-- `ROOT_SERVERS[0]`, the server every resolution (and every CNAME restart)
begins with. -/
def rootFirst : String := "198.41.0.4"

/-- Python's `list.index`: index of the first occurrence, `none` when absent
(where Python raises `ValueError`). -/
def listIndex (a : String) : List String → Option Nat
  | [] => none
  | x :: xs => if x = a then some 0 else (listIndex a xs).map (· + 1)

/-- Lines 121-127: on a transport failure, `ROOT_SERVERS.index(ns)` followed
by `ROOT_SERVERS[idx + 1]`; `none` models the `ValueError`/`IndexError` path
that returns `(None, None)`. -/
def nextRootAfter (ns : String) : Option String :=
  match listIndex ns ROOT_SERVERS with
  | some i => ROOT_SERVERS[i + 1]?
  | none => none

/-- What the scan of the answer section (lines 62-77) decides:
return an address, follow a CNAME, fall through to `return None, None`
(the `for`-`else`), or raise (`rrset[0]` on an empty rrset, caught by the
generic `except`). -/
inductive AnsAct where
  | ans (addr : String)
  | follow (tgt : String)
  | nothingFound
  | pyerr
deriving DecidableEq

/-- Lines 62-77: iterate over the answer section in order; the first A rrset
returns its first address, the first CNAME rrset redirects to its first
target; other rrset types are skipped. -/
def scanAnswer : List RRset → AnsAct
  | [] => .nothingFound
  | r :: rs =>
    match r.rdtype with
    | RType.A =>
      match r.records.head? with
      | some a => .ans a
      | none => .pyerr
    | RType.CNAME =>
      match r.records.head? with
      | some t => .follow t
      | none => .pyerr
    | _ => scanAnswer rs

/-- Result of the glue search for one NS target. -/
inductive GlueRes where
  | got (addr : String)
  | noGlue
  | pyerr
deriving DecidableEq

/-- Lines 87-92: scan the additional section for the first A rrset whose
owner name equals the NS target; take its first address. -/
def findGlueFor (tgt : String) : List RRset → GlueRes
  | [] => .noGlue
  | r :: rs =>
    if r.rdtype = RType.A ∧ r.name = tgt then
      match r.records.head? with
      | some a => .got a
      | none => .pyerr
    else findGlueFor tgt rs

/-- Trace of transport attempts: which query was sent to which server. -/
abbrev Trace := List (String × Query)

/-- A sub-resolution oracle: the recursive `mydig(str(rdata.target))` call,
returning the Python result (`none` when the recursion itself does not
terminate within the fuel) together with its transport trace. -/
abbrev SubResolver := String → Option (Option (String × String)) × Trace

/-- Outcome of the authority-section loops (lines 81-107): a possibly updated
`(found_new_nameserver, current_nameserver)` pair, or divergence inside a
recursive sub-resolution, or a Python exception. -/
inductive DelegRes where
  | cont (found : Bool) (ns : String)
  | diverge
  | pyerr
deriving DecidableEq

/-- Lines 84-106, the loop over the rdatas of one NS rrset.  For each NS
target: search the additional section for glue (this runs, and may overwrite
`current_nameserver`, even when `found_new_nameserver` is already set); then
`if found: break`; otherwise recursively resolve the target and, when an IP
comes back truthy, take it and break. -/
def processTargets (sub : SubResolver) (add : List RRset) :
    List String → Bool → String → DelegRes × Trace
  | [], found, ns => (.cont found ns, [])
  | t :: ts, found, ns =>
    match findGlueFor t add with
    | .got a => (.cont true a, [])
    | .pyerr => (.pyerr, [])
    | .noGlue =>
      if found then (.cont found ns, [])
      else
        match sub t with
        | (none, tr) => (.diverge, tr)
        | (some none, tr) =>
          let rest := processTargets sub add ts found ns
          (rest.1, tr ++ rest.2)
        | (some (some (ip, _)), tr) =>
          if ip = "" then
            let rest := processTargets sub add ts found ns
            (rest.1, tr ++ rest.2)
          else (.cont true ip, tr)

/-- Lines 82-107, the loop over the authority rrsets: non-NS rrsets are
skipped; each NS rrset runs `processTargets`, and the loop carries the
`(found, nameserver)` state across rrsets (Python does not break out of the
outer loop when a nameserver was found). -/
def processAuthority (sub : SubResolver) (add : List RRset) :
    List RRset → Bool → String → DelegRes × Trace
  | [], found, ns => (.cont found ns, [])
  | r :: rs, found, ns =>
    if r.rdtype = RType.NS then
      match processTargets sub add r.records found ns with
      | (.cont found2 ns2, tr) =>
        let rest := processAuthority sub add rs found2 ns2
        (rest.1, tr ++ rest.2)
      | other => other
    else processAuthority sub add rs found ns

/-- The `while True` loop of `mydig` (lines 47-131), indexed by fuel: one
unit of fuel is spent per loop iteration and per entry into a recursive
sub-resolution.  Result `none` means the fuel was exhausted, i.e. the Python
program has not returned within that many steps; `some r` is the Python
return value, where `r = none` is `(None, None)` and `r = some (ip, name)`
is a success.  The second component is the trace of transport attempts. -/
def mydigGo (net : Network) : Nat → String → String →
    Option (Option (String × String)) × Trace
  | 0, _, _ => (none, [])
  | fuel + 1, ns, dom =>
    let q := mkQuery dom
    match net ns q with
    | .err => (some none, [(ns, q)])
    | .fail =>
      match nextRootAfter ns with
      | some ns2 =>
        let r := mydigGo net fuel ns2 dom
        (r.1, (ns, q) :: r.2)
      | none => (some none, [(ns, q)])
    | .resp resp =>
      match resp.answer with
      | a1 :: arest =>
        match scanAnswer (a1 :: arest) with
        | .ans a => (some (some (a, dom)), [(ns, q)])
        | .follow t =>
          let r := mydigGo net fuel rootFirst t
          (r.1, (ns, q) :: r.2)
        | .nothingFound => (some none, [(ns, q)])
        | .pyerr => (some none, [(ns, q)])
      | [] =>
        match resp.authority with
        | b1 :: brest =>
          match processAuthority (fun t => mydigGo net fuel rootFirst t)
              resp.additional (b1 :: brest) false ns with
          | (.cont true ns2, tr) =>
            let r := mydigGo net fuel ns2 dom
            (r.1, (ns, q) :: (tr ++ r.2))
          | (.cont false _, tr) => (some none, (ns, q) :: tr)
          | (.diverge, tr) => (none, (ns, q) :: tr)
          | (.pyerr, tr) => (some none, (ns, q) :: tr)
        | [] => (some none, [(ns, q)])

/-- `mydig(domain_name)`: the resolution starts at `ROOT_SERVERS[0]`. -/
def mydig (fuel : Nat) (net : Network) (d : String) :
    Option (Option (String × String)) × Trace :=
  mydigGo net fuel rootFirst d

/-- The resolution of `d` over `net` never terminates: for every amount of
fuel, the loop is still running. -/
def diverges (net : Network) (d : String) : Prop :=
  ∀ fuel, (mydig fuel net d).1 = none

/-- `net` with every response's rcode replaced by `c` (transport outcomes
and all sections unchanged). -/
def withRcode (net : Network) (c : Nat) : Network := fun s q =>
  match net s q with
  | .resp r => .resp { r with rcode := c }
  | o => o

/-! Mock hierarchies used to exercise the resolver. -/

/-- Every server answers every query with a CNAME from the queried name to
itself: an unbounded alias chain. -/
def selfCnameNet : Network := fun _ q =>
  .resp ⟨0, [⟨q.qname, RType.CNAME, [q.qname]⟩], [], []⟩

/-- A glue address used by the mock hierarchies. -/
def g1 : String := "203.0.113.1"

/-- A second glue address used by the mock hierarchies. -/
def g2 : String := "203.0.113.2"

/-- A delegation cycle: server `g1` delegates (with glue) to `g2` and `g2`
delegates back to `g1`; every other server delegates to `g1`. -/
def delegCycleNet : Network := fun ns _ =>
  if ns = g1 then
    .resp ⟨0, [], [⟨"x.", RType.NS, ["n2."]⟩], [⟨"n2.", RType.A, [g2]⟩]⟩
  else if ns = g2 then
    .resp ⟨0, [], [⟨"x.", RType.NS, ["n1."]⟩], [⟨"n1.", RType.A, [g1]⟩]⟩
  else
    .resp ⟨0, [], [⟨"x.", RType.NS, ["n1."]⟩], [⟨"n1.", RType.A, [g1]⟩]⟩

/-- Every server answers every query with a glue-less delegation to the
nameserver hostname `n.`: resolving `n.` requires recursively resolving
`n.` itself. -/
def noGlueNet : Network := fun _ _ =>
  .resp ⟨0, [], [⟨".", RType.NS, ["n."]⟩], []⟩

/-- Every transport attempt times out. -/
def allFailNet : Network := fun _ _ => .fail

/-- Every server answers with a response whose three sections are empty. -/
def emptyRespNet : Network := fun _ _ => .resp ⟨0, [], [], []⟩

/-- Every server answers with an SOA-only authority section (an
authoritative no-data response in the spec's terms). -/
def soaNet : Network := fun _ _ =>
  .resp ⟨0, [], [⟨"x.", RType.SOA, ["soa"]⟩], []⟩

/-- `ROOT_SERVERS[5]` (`f.root-servers.net`). -/
def rootF : String := "192.5.5.241"

/-- `ROOT_SERVERS[6]` (`g.root-servers.net`). -/
def rootG : String := "192.112.36.4"

/-- The roots delegate `x.` (with glue) to the address of root server `f`;
that server times out; root server `g` holds the answer.  Exercises the
transport-failure handler when the failing server happens to be in the root
list. -/
def fallbackNet : Network := fun ns _ =>
  if ns = rootF then .fail
  else if ns = rootG then .resp ⟨0, [⟨"x.", RType.A, ["1.2.3.4"]⟩], [], []⟩
  else .resp ⟨0, [], [⟨"x.", RType.NS, ["ns.f."]⟩], [⟨"ns.f.", RType.A, [rootF]⟩]⟩

/-- The first root delegates `x.` with two NS targets, each with glue
(`g1` and `g2`); `g1` times out while `g2` holds the answer. -/
def twoGlueNet : Network := fun ns _ =>
  if ns = rootFirst then
    .resp ⟨0, [], [⟨"x.", RType.NS, ["n1.", "n2."]⟩],
      [⟨"n1.", RType.A, [g1]⟩, ⟨"n2.", RType.A, [g2]⟩]⟩
  else if ns = g2 then .resp ⟨0, [⟨"x.", RType.A, ["5.5.5.5"]⟩], [], []⟩
  else .fail

/-- The answer for `x.` holds a CNAME rrset (to `y.`) followed by an A rrset
for `x.` itself; `y.` resolves to `7.7.7.7`. -/
def mixedNet : Network := fun _ q =>
  if q.qname = "x." then
    .resp ⟨0, [⟨"x.", RType.CNAME, ["y."]⟩, ⟨"x.", RType.A, ["5.6.7.8"]⟩], [], []⟩
  else .resp ⟨0, [⟨"y.", RType.A, ["7.7.7.7"]⟩], [], []⟩

/-- Every server answers with rcode 3 (NXDOMAIN) yet an A record in the
answer section. -/
def nxAnswerNet : Network := fun _ _ =>
  .resp ⟨3, [⟨"x.", RType.A, ["9.9.9.9"]⟩], [], []⟩

/-- Modelled from the spec (§4.3): the glue addresses of one NS target — all
address records of the additional section whose owner name exactly matches
the target. -/
def specGlueFor (t : String) : List RRset → List String
  | [] => []
  | r :: rs =>
    if r.rdtype = RType.A ∧ r.name = t then r.records ++ specGlueFor t rs
    else specGlueFor t rs

/-- Duplicate removal keeping the first occurrence of each element. -/
def dedupFirst (seen : List String) : List String → List String
  | [] => []
  | x :: xs => if x ∈ seen then dedupFirst seen xs else x :: dedupFirst (x :: seen) xs

/-- Modelled from the spec (§4.3): the candidate set of a delegation — the
union, in discovery order, of the glue addresses found for each NS target,
duplicates removed while preserving first-seen order. -/
def specGlueCandidates (targets : List String) (add : List RRset) : List String :=
  dedupFirst [] (targets.foldr (fun t acc => specGlueFor t add ++ acc) [])

/-! Helper lemmas. -/

/-- Every query built by `mkQuery` has the Recursion Desired bit clear:
`make_query` sets it and the `^=` toggle clears it. -/
theorem mkQuery_rd (d : String) : (mkQuery d).rdBit = false := by
  simp only [mkQuery, Query.rdBit]
  decide

/-- Under `selfCnameNet` the loop never returns, whatever the fuel and the
current state: every hop follows one more CNAME. -/
theorem selfCname_aux :
    ∀ (fuel : Nat) (ns d : String), (mydigGo selfCnameNet fuel ns d).1 = none := by
  intro fuel
  induction fuel with
  | zero => intro ns d; rfl
  | succ f ih => intro ns d; exact ih rootFirst d

/-- Under `delegCycleNet` the loop never returns, whatever the fuel and the
current state: every hop hands over to the other server of the cycle. -/
theorem delegCycle_aux :
    ∀ (fuel : Nat) (ns d : String), (mydigGo delegCycleNet fuel ns d).1 = none := by
  intro fuel
  induction fuel with
  | zero => intro ns d; rfl
  | succ f ih =>
    intro ns d
    by_cases h1 : ns = g1
    · subst h1; exact ih g2 d
    · by_cases h2 : ns = g2
      · subst h2; exact ih g1 d
      · have hnet : delegCycleNet ns (mkQuery d)
            = .resp ⟨0, [], [⟨"x.", RType.NS, ["n1."]⟩], [⟨"n1.", RType.A, [g1]⟩]⟩ := by
          simp [delegCycleNet, h1, h2]
        simp only [mydigGo, hnet]
        exact ih g1 d

/-- Under `noGlueNet` the loop never returns: each hop recursively resolves
the glue-less NS hostname `n.`, which re-enters the same situation. -/
theorem noGlue_aux :
    ∀ (fuel : Nat) (ns d : String), (mydigGo noGlueNet fuel ns d).1 = none := by
  intro fuel
  induction fuel with
  | zero => intro ns d; rfl
  | succ f ih =>
    intro ns d
    rcases h : mydigGo noGlueNet f rootFirst "n." with ⟨r1, tr⟩
    have h1 : r1 = none := by
      have h2 := ih rootFirst "n."
      rw [h] at h2
      exact h2
    subst h1
    simp [mydigGo, noGlueNet, processAuthority, processTargets, findGlueFor, h]

/-- The loop is insensitive to rcodes: replacing every response's rcode
changes neither the result nor the trace.  (`mydig` never reads
`response.rcode`.) -/
theorem rcode_aux (net : Network) (c : Nat) :
    ∀ (fuel : Nat) (ns d : String),
      mydigGo (withRcode net c) fuel ns d = mydigGo net fuel ns d := by
  intro fuel
  induction fuel with
  | zero => intro ns d; rfl
  | succ f ih =>
    intro ns d
    have hsub : (fun t => mydigGo (withRcode net c) f rootFirst t)
        = fun t => mydigGo net f rootFirst t := funext fun t => ih rootFirst t
    simp only [mydigGo]
    cases hnet : net ns (mkQuery d) with
    | err =>
      have hw : withRcode net c ns (mkQuery d) = .err := by simp [withRcode, hnet]
      rw [hw]
    | fail =>
      have hw : withRcode net c ns (mkQuery d) = .fail := by simp [withRcode, hnet]
      rw [hw]
      cases nextRootAfter ns with
      | none => rfl
      | some ns2 => simp [ih]
    | resp r =>
      obtain ⟨rc, ans, auth, addl⟩ := r
      have hw : withRcode net c ns (mkQuery d) = .resp ⟨c, ans, auth, addl⟩ := by
        simp [withRcode, hnet]
      rw [hw]
      cases ans with
      | cons a1 arest =>
        cases hsc : scanAnswer (a1 :: arest) with
        | ans a => simp [hsc]
        | follow t => simp [hsc, ih]
        | nothingFound => simp [hsc]
        | pyerr => simp [hsc]
      | nil =>
        cases auth with
        | nil => rfl
        | cons b1 brest =>
          simp only [hsub]
          rcases hpa : processAuthority (fun t => mydigGo net f rootFirst t)
              addl (b1 :: brest) false ns with ⟨res, tr⟩
          cases res with
          | cont fd ns2 =>
            cases fd with
            | true => simp [hpa, ih]
            | false => simp [hpa]
          | diverge => simp [hpa]
          | pyerr => simp [hpa]

/-- Every transport attempt recorded by `processTargets` comes from one of
its recursive sub-resolutions. -/
theorem processTargets_trace (sub : SubResolver) (add : List RRset) :
    ∀ (ts : List String) (found : Bool) (ns : String) (p : String × Query),
      p ∈ (processTargets sub add ts found ns).2 → ∃ t, p ∈ (sub t).2 := by
  intro ts
  induction ts with
  | nil =>
    intro found ns p hp
    simp [processTargets] at hp
  | cons t ts ih =>
    intro found ns p hp
    simp only [processTargets] at hp
    cases hg : findGlueFor t add with
    | got a => rw [hg] at hp; simp at hp
    | pyerr => rw [hg] at hp; simp at hp
    | noGlue =>
      rw [hg] at hp
      by_cases hf : found = true
      · rw [if_pos hf] at hp; simp at hp
      · rw [if_neg hf] at hp
        rcases hs : sub t with ⟨r, tr⟩
        rw [hs] at hp
        cases r with
        | none =>
          exact ⟨t, by rw [hs]; simpa using hp⟩
        | some r2 =>
          cases r2 with
          | none =>
            simp only [List.mem_append] at hp
            rcases hp with hp | hp
            · exact ⟨t, by rw [hs]; simpa using hp⟩
            · exact ih found ns p hp
          | some pr =>
            rcases pr with ⟨ip, nm⟩
            by_cases hip : ip = ""
            · simp only [hip, if_pos, List.mem_append] at hp
              rcases hp with hp | hp
              · exact ⟨t, by rw [hs]; simpa using hp⟩
              · exact ih found ns p hp
            · simp only [hip, if_neg, List.mem_append] at hp
              exact ⟨t, by rw [hs]; simpa using hp⟩

/-- Every transport attempt recorded by `processAuthority` comes from one of
its recursive sub-resolutions. -/
theorem processAuthority_trace (sub : SubResolver) (add : List RRset) :
    ∀ (rrs : List RRset) (found : Bool) (ns : String) (p : String × Query),
      p ∈ (processAuthority sub add rrs found ns).2 → ∃ t, p ∈ (sub t).2 := by
  intro rrs
  induction rrs with
  | nil =>
    intro found ns p hp
    simp [processAuthority] at hp
  | cons r rs ih =>
    intro found ns p hp
    simp only [processAuthority] at hp
    by_cases hns : r.rdtype = RType.NS
    · rw [if_pos hns] at hp
      rcases hpt : processTargets sub add r.records found ns with ⟨res, tr⟩
      rw [hpt] at hp
      cases res with
      | cont f2 n2 =>
        simp only [List.mem_append] at hp
        rcases hp with hp | hp
        · exact processTargets_trace sub add r.records found ns p (by rw [hpt]; simpa using hp)
        · exact ih f2 n2 p hp
      | diverge =>
        exact processTargets_trace sub add r.records found ns p (by rw [hpt]; simpa using hp)
      | pyerr =>
        exact processTargets_trace sub add r.records found ns p (by rw [hpt]; simpa using hp)
    · rw [if_neg hns] at hp
      exact ih found ns p hp

/-- Every query that `mydigGo` hands to the transport — at any hop, in any
recursive sub-resolution — was built by `mkQuery` and has the Recursion
Desired bit clear. -/
theorem mydigGo_trace_rd (net : Network) :
    ∀ (fuel : Nat) (ns d : String) (p : String × Query),
      p ∈ (mydigGo net fuel ns d).2 → p.2.rdBit = false := by
  intro fuel
  induction fuel with
  | zero =>
    intro ns d p hp
    simp [mydigGo] at hp
  | succ f ih =>
    intro ns d p hp
    simp only [mydigGo] at hp
    cases hnet : net ns (mkQuery d) with
    | err =>
      rw [hnet] at hp
      simp at hp
      subst hp
      exact mkQuery_rd d
    | fail =>
      rw [hnet] at hp
      cases hnr : nextRootAfter ns with
      | some ns2 =>
        rw [hnr] at hp
        simp only [List.mem_cons] at hp
        rcases hp with hp | hp
        · subst hp; exact mkQuery_rd d
        · exact ih ns2 d p hp
      | none =>
        rw [hnr] at hp
        simp at hp
        subst hp
        exact mkQuery_rd d
    | resp r =>
      rw [hnet] at hp
      obtain ⟨rc, ans, auth, addl⟩ := r
      cases ans with
      | cons a1 arest =>
        rcases hsc : scanAnswer (a1 :: arest) with a | t | _ | _
        · simp [hsc] at hp
          subst hp
          exact mkQuery_rd d
        · simp [hsc] at hp
          rcases hp with hp | hp
          · subst hp; exact mkQuery_rd d
          · exact ih rootFirst t p hp
        · simp [hsc] at hp
          subst hp
          exact mkQuery_rd d
        · simp [hsc] at hp
          subst hp
          exact mkQuery_rd d
      | nil =>
        cases auth with
        | nil =>
          simp at hp
          subst hp
          exact mkQuery_rd d
        | cons b1 brest =>
          rcases hpa : processAuthority (fun t => mydigGo net f rootFirst t)
              addl (b1 :: brest) false ns with ⟨res, tr⟩
          have htr : p ∈ tr → p.2.rdBit = false := by
            intro hmem
            obtain ⟨t, hmt⟩ := processAuthority_trace
              (fun t => mydigGo net f rootFirst t) addl (b1 :: brest) false ns p
              (by rw [hpa]; simpa using hmem)
            exact ih rootFirst t p hmt
          cases res with
          | cont fd ns2 =>
            cases fd with
            | true =>
              simp [hpa] at hp
              rcases hp with hp | hp | hp
              · subst hp; exact mkQuery_rd d
              · exact htr hp
              · exact ih ns2 d p hp
            | false =>
              simp [hpa] at hp
              rcases hp with hp | hp
              · subst hp; exact mkQuery_rd d
              · exact htr hp
          | diverge =>
            simp [hpa] at hp
            rcases hp with hp | hp
            · subst hp; exact mkQuery_rd d
            · exact htr hp
          | pyerr =>
            simp [hpa] at hp
            rcases hp with hp | hp
            · subst hp; exact mkQuery_rd d
            · exact htr hp

/-- Python's `list.index` finds nothing when the element is absent. -/
theorem listIndex_eq_none (a : String) :
    ∀ (l : List String), a ∉ l → listIndex a l = none := by
  intro l
  induction l with
  | nil => intro _; rfl
  | cons x xs ih =>
    intro h
    simp only [List.mem_cons, not_or] at h
    obtain ⟨h1, h2⟩ := h
    simp only [listIndex, if_neg (fun hxa : x = a => h1 hxa.symm), ih h2, Option.map_none']

/-- A transport failure at a server outside the root list exhausts the
`except` handler: `ROOT_SERVERS.index` raises and `(None, None)` is
returned. -/
theorem nextRootAfter_nonroot (ns : String) (h : ns ∉ ROOT_SERVERS) :
    nextRootAfter ns = none := by
  rw [nextRootAfter, listIndex_eq_none ns ROOT_SERVERS h]

/-! Claim theorems. -/

/-- C1 (counterexample): `mydig` has no hop budget — under a hierarchy whose
every answer is a CNAME (each name aliased to itself, an alias chain longer
than any `max_hops`), the resolution never terminates, with a
HopLimitExceeded failure or otherwise. -/
theorem selfCname_diverges_cex : diverges selfCnameNet "a." :=
  fun fuel => selfCname_aux fuel rootFirst "a."

/-- C1 (amended): the code counts no hops and owns no hop budget: under
`selfCnameNet`, for every fuel bound, start server and target, the loop is
still running — no hop limit ever cuts a CNAME chain off. -/
theorem cname_chain_no_hop_limit (fuel : Nat) (ns d : String) :
    (mydigGo selfCnameNet fuel ns d).1 = none :=
  selfCname_aux fuel ns d

/-- C2 (counterexample): `mydig` keeps no visited-target set — under the
delegation cycle `g1 ↔ g2` the same target `x.` is queried at every hop
(three times in the first three hops) and the resolution never terminates,
instead of failing with CycleDetected within `O(visited-set size)` hops. -/
theorem delegCycle_diverges_cex :
    diverges delegCycleNet "x."
  ∧ (mydig 3 delegCycleNet "x.").2
      = [(rootFirst, mkQuery "x."), (g1, mkQuery "x."), (g2, mkQuery "x.")] :=
  ⟨fun fuel => delegCycle_aux fuel rootFirst "x.", by decide⟩

/-- C2 (amended): the code performs no cycle detection: under
`delegCycleNet`, for every fuel bound, start server and target, the loop is
still running — a delegation cycle loops forever rather than terminating. -/
theorem delegation_cycle_no_cycle_detection (fuel : Nat) (ns d : String) :
    (mydigGo delegCycleNet fuel ns d).1 = none :=
  delegCycle_aux fuel ns d

/-- C3 (counterexample): the recursive sub-resolution
(`mydig(str(rdata.target))`) receives no hop budget — under a hierarchy
whose NS hostnames never come with glue, each sub-resolution re-enters the
same glue-less delegation and the nesting never bottoms out: the resolution
never terminates. -/
theorem noGlue_diverges_cex : diverges noGlueNet "x." :=
  fun fuel => noGlue_aux fuel rootFirst "x."

/-- C3 (amended): sub-resolutions are launched with no budget derived from
the caller: under `noGlueNet`, for every fuel bound, start server and
target, the loop is still running — the nesting depth of sub-resolutions is
unbounded and the resolution does not terminate under a cyclic hierarchy. -/
theorem subresolution_unbounded_recursion (fuel : Nat) (ns d : String) :
    (mydigGo noGlueNet fuel ns d).1 = none :=
  noGlue_aux fuel ns d

/-- C4 (counterexample): a transport failure is not handled within the
current hop's candidate set.  Under `fallbackNet` the second hop's only
candidate (the glue address, which happens to be root server `f`) fails;
instead of terminating with a TransportExhausted failure for that hop, the
code falls back to the root-server list — a previous hop's candidate set —
queries root server `g` for the same name and returns its answer. -/
theorem transport_fail_cross_hop_fallback_cex :
    mydig 10 fallbackNet "x."
      = (some (some ("1.2.3.4", "x.")),
          [(rootFirst, mkQuery "x."), (rootF, mkQuery "x."), (rootG, mkQuery "x.")]) := by
  decide

/-- C4 (amended): on any transport failure the code consults only the fixed
root-server list: if the failing server is the i-th root server the current
query is retried at the (i+1)-th root server regardless of which hop it
belongs to, and otherwise (server not a root, or last root) the resolution
immediately returns the generic `(None, None)`. -/
theorem transport_fail_root_list_step (fuel : Nat) (net : Network) (ns d : String)
    (h : net ns (mkQuery d) = .fail) :
    mydigGo net (fuel + 1) ns d =
      match nextRootAfter ns with
      | some ns2 =>
        ((mydigGo net fuel ns2 d).1, (ns, mkQuery d) :: (mydigGo net fuel ns2 d).2)
      | none => (some none, [(ns, mkQuery d)]) := by
  cases hnr : nextRootAfter ns with
  | some ns2 => simp [mydigGo, h, hnr]
  | none => simp [mydigGo, h, hnr]

/-- C4 (witness): the amended step at a concrete failing transport. -/
theorem transport_fail_root_list_step_witness :
    mydigGo allFailNet 1 rootFirst "w." =
      match nextRootAfter rootFirst with
      | some ns2 =>
        ((mydigGo allFailNet 0 ns2 "w.").1,
          (rootFirst, mkQuery "w.") :: (mydigGo allFailNet 0 ns2 "w.").2)
      | none => (some none, [(rootFirst, mkQuery "w.")]) :=
  transport_fail_root_list_step 0 allFailNet rootFirst "w." rfl

/-- C5 (counterexample): three distinct failure causes — every transport
attempt failing (the spec's TransportExhausted), an SOA-only authority (the
spec's AuthoritativeNoData) and a response with all sections empty (the
spec's NoDelegation) — all surface as the very same generic `(None, None)`
value, not as distinct inspectable failure kinds. -/
theorem distinct_failures_same_value_cex :
    (mydig 13 allFailNet "x.").1 = some none
  ∧ (mydig 1 soaNet "x.").1 = some none
  ∧ (mydig 1 emptyRespNet "x.").1 = some none := by
  decide

/-- C5 (amended): failures are collapsed: for every target name, transport
exhaustion, authoritative no-data and an empty response each return the one
generic failure value `(None, None)`. -/
theorem failures_collapse_to_none_pair (d : String) :
    (mydig 13 allFailNet d).1 = some none
  ∧ (mydig 1 soaNet d).1 = some none
  ∧ (mydig 1 emptyRespNet d).1 = some none :=
  ⟨rfl, rfl, rfl⟩

/-- C6 (counterexample): a response whose rcode signals name-does-not-exist
(rcode 3) but whose answer section carries an A record is returned as a
success — the resolution does not terminate with a NameNotFound failure,
because the code never looks at the rcode. -/
theorem nxdomain_rcode_ignored_cex :
    mydig 1 nxAnswerNet "x."
      = (some (some ("9.9.9.9", "x.")), [(rootFirst, mkQuery "x.")]) := by
  decide

/-- C6 (amended): the code never inspects the rcode: replacing every
response's rcode by an arbitrary value changes neither the result nor the
trace of any resolution, so no rcode — name-error included — affects the
outcome; responses are processed by their sections alone. -/
theorem rcode_never_inspected (net : Network) (c : Nat) (fuel : Nat) (ns d : String) :
    mydigGo (withRcode net c) fuel ns d = mydigGo net fuel ns d :=
  rcode_aux net c fuel ns d

/-- C7 (counterexample): for a delegation with two NS targets each having
glue, the spec's candidate set is the union `[g1, g2]`, but the code's next
hop uses the single address `g1`: when `g1` fails at the transport layer the
resolution returns `(None, None)` having never queried `g2`, which holds the
answer. -/
theorem glue_union_not_taken_cex :
    specGlueCandidates ["n1.", "n2."]
        [⟨"n1.", RType.A, [g1]⟩, ⟨"n2.", RType.A, [g2]⟩] = [g1, g2]
  ∧ mydig 10 twoGlueNet "x."
      = (some none, [(rootFirst, mkQuery "x."), (g1, mkQuery "x.")]) := by
  decide

/-- C7 (amended): the delegation step selects a single glue address, not a
union: as soon as one NS target has a matching glue record, its address is
taken as the sole next nameserver, the remaining NS targets of the rrset are
not examined and no sub-resolution is launched. -/
theorem first_glue_wins (sub : SubResolver) (add : List RRset)
    (ts : List String) (t ns a : String) (h : findGlueFor t add = .got a) :
    processTargets sub add (t :: ts) false ns = (.cont true a, []) := by
  simp [processTargets, h]

/-- C7 (witness): the amended selection at a concrete two-glue delegation. -/
theorem first_glue_wins_witness :
    processTargets (fun _ => (some none, ([] : Trace)))
        [⟨"n1.", RType.A, [g1]⟩, ⟨"n2.", RType.A, [g2]⟩]
        ["n1.", "n2."] false "s" = (.cont true g1, []) :=
  first_glue_wins _ _ _ _ _ _ rfl

/-- C8 (counterexample): an answer section holding a CNAME rrset followed by
an A rrset for the same target does not yield the A record: the scan acts on
the CNAME first, and `mydig` follows the redirect to `y.` and returns the
address of `y.`, not the A record of `x.` present in the same answer. -/
theorem cname_before_a_redirects_cex :
    scanAnswer [⟨"x.", RType.CNAME, ["y."]⟩, ⟨"x.", RType.A, ["5.6.7.8"]⟩]
        = .follow "y."
  ∧ (mydig 2 mixedNet "x.").1 = some (some ("7.7.7.7", "y.")) := by
  decide

/-- C8 (amended): the answer scan acts on whichever of A/CNAME appears first
in the answer section: a leading CNAME rrset triggers a redirect whatever
follows it, and a leading A rrset is returned whatever follows it. -/
theorem answer_scan_order_decides (nm1 nm2 t a : String)
    (ts as : List String) (rest : List RRset) :
    scanAnswer (⟨nm1, RType.CNAME, t :: ts⟩ :: rest) = .follow t
  ∧ scanAnswer (⟨nm2, RType.A, a :: as⟩ :: rest) = .ans a :=
  ⟨rfl, rfl⟩

/-- C9: every query the resolver hands to the transport — at every hop of
every resolution, recursive sub-resolutions of nameserver hostnames
included — has the Recursion Desired flag clear (`make_query` sets it, the
`^=` toggle clears it). -/
theorem queries_rd_unset (fuel : Nat) (net : Network) (d : String)
    (p : String × Query) (hp : p ∈ (mydig fuel net d).2) :
    p.2.rdBit = false :=
  mydigGo_trace_rd net fuel rootFirst d p hp

/-- C9 (witness): the query of a concrete one-hop resolution is in the trace
and has the flag clear. -/
theorem queries_rd_unset_witness :
    (rootFirst, mkQuery "w.") ∈ (mydig 1 emptyRespNet "w.").2
  ∧ ((rootFirst, mkQuery "w.") : String × Query).2.rdBit = false :=
  ⟨by decide, queries_rd_unset 1 emptyRespNet "w." (rootFirst, mkQuery "w.") (by decide)⟩

/-- C10: a transport failure at a nameserver whose address is not one of the
thirteen root-server addresses makes the whole resolution return the failure
value `(None, None)` at once: the failed attempt is the only transport
attempt of that call, no other server is tried. -/
theorem nonroot_transport_fail_aborts (fuel : Nat) (net : Network) (ns d : String)
    (h1 : ns ∉ ROOT_SERVERS) (h2 : net ns (mkQuery d) = .fail) :
    mydigGo net (fuel + 1) ns d = (some none, [(ns, mkQuery d)]) := by
  simp [mydigGo, h2, nextRootAfter_nonroot ns h1]

/-- C10 (witness): the abort at a concrete non-root server. -/
theorem nonroot_transport_fail_aborts_witness :
    mydigGo allFailNet 1 "10.0.0.1" "z." = (some none, [("10.0.0.1", mkQuery "z.")]) :=
  nonroot_transport_fail_aborts 0 allFailNet "10.0.0.1" "z." (by decide) rfl

end Mydig
